/-
Verification of the uie-wordle repository: the guess-evaluation algorithm
and the round state machine of the Wordle UI extension.

The round state machine is embedded from
`src/app/extensions/components/GameBoard.tsx` (the named game-board file);
the fallback-list word-acquisition variant is embedded from the second
game-board variant in the repository (the one declaring `FALLBACK_WORDS`).
The guess evaluator lives in `GuessRow.tsx`, which is not part of the
provided sources, so it is modelled from the specification's two-pass rule.
-/
import Mathlib

set_option linter.unusedVariables false

namespace Wordle

/-- Per-letter classification of a guessed character. -/
inductive LetterClass where
  | Correct
  | Present
  | Absent
deriving DecidableEq, Repr

/-- Modelled from the spec: the multiset of available letter counts of the
secret word, represented as a function from characters to occurrence counts.
`decCount cnt c` decrements the available count of letter `c`. -/
def decCount (cnt : Char → Nat) (c : Char) : Char → Nat :=
  fun x => if x = c then cnt x - 1 else cnt x

/-- Modelled from the spec: first pass of the two-pass rule (§4.2, step 1).
For each position, if the guessed character equals the secret character the
position is marked `Correct` and that letter's available count is
decremented; otherwise the position is left unmarked (`none`).  Returns the
marks together with the remaining available counts. -/
def pass1 : List (Char × Char) → (Char → Nat) → List (Option LetterClass) × (Char → Nat)
  | [], cnt => ([], cnt)
  | (g, s) :: rest, cnt =>
    if g = s then
      let r := pass1 rest (decCount cnt s)
      (some LetterClass.Correct :: r.1, r.2)
    else
      let r := pass1 rest cnt
      (none :: r.1, r.2)

/-- Modelled from the spec: second pass of the two-pass rule (§4.2, step 2).
Each position already marked in pass 1 keeps its mark; an unmarked position
is marked `Present` (decrementing the letter's available count) when the
guessed letter still has available count > 0, and `Absent` otherwise. -/
def pass2 : List (Char × Option LetterClass) → (Char → Nat) → List LetterClass
  | [], _ => []
  | (_, some m) :: rest, cnt => m :: pass2 rest cnt
  | (g, none) :: rest, cnt =>
    if 0 < cnt g then LetterClass.Present :: pass2 rest (decCount cnt g)
    else LetterClass.Absent :: pass2 rest cnt

/-- Modelled from the spec: `evaluate(guess, secret)` (§4.2) — the exact
two-pass Wordle rule.  The evaluator component (`GuessRow.tsx`) is not among
the provided sources, so this definition transcribes the specification's
algorithm: initialize the available counts from the secret's multiset of
letters, run pass 1 over the aligned character pairs, then pass 2 over the
guess characters paired with the pass-1 marks. -/
def evaluate (guess secret : String) : List LetterClass :=
  let gs := guess.data
  let ss := secret.data
  let p1 := pass1 (gs.zip ss) (fun c => ss.count c)
  pass2 (gs.zip p1.1) p1.2

/-- Number of positions whose guessed letter is `L` and whose classification
is `Correct` or `Present` (i.e. not `Absent`). -/
def markedCount (L : Char) : List (Char × LetterClass) → Nat
  | [] => 0
  | x :: rest => (if x.1 = L ∧ x.2 ≠ LetterClass.Absent then 1 else 0) + markedCount L rest

/-- Number of positions whose guessed letter is `L` and whose classification
is `Absent`. -/
def absentCount (L : Char) : List (Char × LetterClass) → Nat
  | [] => 0
  | x :: rest => (if x.1 = L ∧ x.2 = LetterClass.Absent then 1 else 0) + absentCount L rest

/-- Number of aligned positions whose characters match and equal `c`
(the positions pass 1 marks `Correct` with letter `c`). -/
def matchCount (c : Char) : List (Char × Char) → Nat
  | [] => 0
  | (g, s) :: rest => (if g = s ∧ s = c then 1 else 0) + matchCount c rest

/-- Number of pass-1-marked positions whose guessed letter is `L`. -/
def correctMarkCount (L : Char) : List (Char × Option LetterClass) → Nat
  | [] => 0
  | (g, some _) :: rest => (if g = L then 1 else 0) + correctMarkCount L rest
  | (_, none) :: rest => correctMarkCount L rest

/-- Number of positions whose guessed letter is `L`. -/
def fstCount (L : Char) : List (Char × LetterClass) → Nat
  | [] => 0
  | x :: rest => (if x.1 = L then 1 else 0) + fstCount L rest

lemma pass1_marks_length (ps : List (Char × Char)) (cnt : Char → Nat) :
    (pass1 ps cnt).1.length = ps.length := by
  induction ps generalizing cnt with
  | nil => rfl
  | cons p rest ih =>
    obtain ⟨g, s⟩ := p
    simp only [pass1]
    split <;> simp [ih]

lemma pass2_length (xs : List (Char × Option LetterClass)) (cnt : Char → Nat) :
    (pass2 xs cnt).length = xs.length := by
  induction xs generalizing cnt with
  | nil => rfl
  | cons x rest ih =>
    obtain ⟨g, m⟩ := x
    cases m with
    | some m => simp [pass2, ih]
    | none =>
      simp only [pass2]
      split <;> simp [ih]

/-- The classifications produced by running both passes are `Correct` at
exactly the aligned positions whose characters agree. -/
lemma pass2_pass1_forall (ps : List (Char × Char)) (cnt cnt2 : Char → Nat) :
    List.Forall₂ (fun p c => (c = LetterClass.Correct ↔ p.1 = p.2)) ps
      (pass2 ((ps.map Prod.fst).zip (pass1 ps cnt).1) cnt2) := by
  induction ps generalizing cnt cnt2 with
  | nil => simp [pass1, pass2]
  | cons p rest ih =>
    obtain ⟨g, s⟩ := p
    by_cases h : g = s
    · simp only [pass1, if_pos h, List.map_cons, List.zip_cons_cons, pass2]
      exact List.Forall₂.cons (by simp [h]) (ih _ _)
    · simp only [pass1, if_neg h, List.map_cons, List.zip_cons_cons, pass2]
      split
      · exact List.Forall₂.cons (by simp [h]) (ih _ _)
      · exact List.Forall₂.cons (by simp [h]) (ih _ _)

lemma evaluate_length (g s : String) (hg : g.length = 5) (hs : s.length = 5) :
    (evaluate g s).length = 5 := by
  have hgd : g.data.length = 5 := hg
  have hsd : s.data.length = 5 := hs
  show (pass2 (g.data.zip (pass1 (g.data.zip s.data) (fun c => s.data.count c)).1)
      (pass1 (g.data.zip s.data) (fun c => s.data.count c)).2).length = 5
  rw [pass2_length, List.length_zip, pass1_marks_length, List.length_zip, hgd, hsd]
  simp

/-- Final available counts after pass 1: the initial count of each letter
less the number of `Correct` positions that claimed it. -/
lemma pass1_counts (ps : List (Char × Char)) (cnt : Char → Nat) (L : Char) :
    (pass1 ps cnt).2 L = cnt L - matchCount L ps := by
  induction ps generalizing cnt with
  | nil => simp [pass1, matchCount]
  | cons p rest ih =>
    obtain ⟨g, s⟩ := p
    by_cases h : g = s
    · simp only [pass1, if_pos h, matchCount]
      rw [ih]
      by_cases hs : s = L
      · rw [if_pos ⟨h, hs⟩]
        simp only [decCount]
        rw [if_pos hs.symm]
        omega
      · rw [if_neg (fun hand => hs hand.2)]
        simp only [decCount]
        rw [if_neg (fun e => hs e.symm)]
        omega
    · simp only [pass1, if_neg h, matchCount]
      rw [ih, if_neg (fun hand => h hand.1)]
      omega

/-- The pass-1 marks aligned with the guessed characters carry letter `L` at
exactly the matching positions with letter `L`. -/
lemma correctMarkCount_pass1 (L : Char) (ps : List (Char × Char)) (cnt : Char → Nat) :
    correctMarkCount L ((ps.map Prod.fst).zip (pass1 ps cnt).1) = matchCount L ps := by
  induction ps generalizing cnt with
  | nil => rfl
  | cons p rest ih =>
    obtain ⟨g, s⟩ := p
    by_cases h : g = s
    · simp only [pass1, if_pos h, List.map_cons, List.zip_cons_cons, correctMarkCount, matchCount]
      rw [ih]
      by_cases hL : g = L
      · rw [if_pos hL, if_pos ⟨h, h ▸ hL⟩]
      · rw [if_neg hL, if_neg (fun hand => hL (h.symm ▸ hand.2))]
    · simp only [pass1, if_neg h, List.map_cons, List.zip_cons_cons, correctMarkCount, matchCount]
      rw [ih, if_neg (fun hand => h hand.1)]
      omega

/-- Pass 2 marks at most `cnt L` additional `L`-positions beyond the pass-1
marks: each `Present` mark consumes one unit of the available count. -/
lemma pass2_marked_le (xs : List (Char × Option LetterClass)) (cnt : Char → Nat) (L : Char) :
    markedCount L ((xs.map Prod.fst).zip (pass2 xs cnt)) ≤ correctMarkCount L xs + cnt L := by
  induction xs generalizing cnt with
  | nil => simp [pass2, markedCount, correctMarkCount]
  | cons x rest ih =>
    obtain ⟨g, m⟩ := x
    cases m with
    | some m =>
      simp only [pass2, List.map_cons, List.zip_eq_zipWith, List.zipWith_cons_cons,
        markedCount, correctMarkCount]
      have hih := ih cnt
      rw [List.zip_eq_zipWith] at hih
      by_cases hg : g = L
      · rw [if_pos hg]
        split_ifs with h1 <;> omega
      · rw [if_neg hg, if_neg (fun hand => hg hand.1)]
        omega
    | none =>
      simp only [pass2, List.map_cons, List.zip_eq_zipWith, correctMarkCount]
      by_cases hc : 0 < cnt g
      · rw [if_pos hc]
        simp only [List.zipWith_cons_cons, markedCount]
        by_cases hg : g = L
        · rw [if_pos ⟨hg, by decide⟩]
          have hih := ih (decCount cnt g)
          rw [List.zip_eq_zipWith] at hih
          have hdec : decCount cnt g L = cnt L - 1 := by
            simp only [decCount]
            rw [if_pos hg.symm]
          rw [hdec] at hih
          rw [hg] at hc
          omega
        · rw [if_neg (fun hand => hg hand.1)]
          have hih := ih (decCount cnt g)
          rw [List.zip_eq_zipWith] at hih
          have hdec : decCount cnt g L = cnt L := by
            simp only [decCount]
            rw [if_neg (fun e => hg e.symm)]
          rw [hdec] at hih
          omega
      · rw [if_neg hc]
        simp only [List.zipWith_cons_cons, markedCount]
        rw [if_neg (fun hand => hand.2 rfl)]
        have hih := ih cnt
        rw [List.zip_eq_zipWith] at hih
        omega

lemma marked_add_absent (L : Char) (xs : List (Char × LetterClass)) :
    markedCount L xs + absentCount L xs = fstCount L xs := by
  induction xs with
  | nil => rfl
  | cons x rest ih =>
    simp only [markedCount, absentCount, fstCount]
    by_cases hg : x.1 = L
    · by_cases hr : x.2 = LetterClass.Absent
      · rw [if_neg (fun hand => hand.2 hr), if_pos ⟨hg, hr⟩, if_pos hg]
        omega
      · rw [if_pos ⟨hg, hr⟩, if_neg (fun hand => hr hand.2), if_pos hg]
        omega
    · rw [if_neg (fun hand => hg hand.1), if_neg (fun hand => hg hand.1), if_neg hg]
      omega

lemma fstCount_zip (L : Char) (gs : List Char) (res : List LetterClass)
    (h : gs.length ≤ res.length) :
    fstCount L (gs.zip res) = gs.count L := by
  induction gs generalizing res with
  | nil => rfl
  | cons g gs ih =>
    cases res with
    | nil => simp at h
    | cons r res =>
      simp only [List.zip_eq_zipWith, List.zipWith_cons_cons, fstCount, List.count_cons,
        beq_iff_eq]
      have hih := ih res (by simpa using h)
      rw [List.zip_eq_zipWith] at hih
      rw [hih]
      by_cases hg : g = L
      · subst hg
        simp
        omega
      · simp [hg, Ne.symm hg]

/-- JavaScript's `String.prototype.toUpperCase()`, character by character. -/
def toUpperStr (s : String) : String := ⟨s.data.map Char.toUpper⟩

/-- Severity of a `sendAlert` notification (the `type`/`variant` field). -/
inductive AlertVariant where
  | danger
  | success
  | error
  | warning
deriving DecidableEq, Repr

/-- A `sendAlert` payload: optional title, message and severity. -/
structure Alert where
  title : Option String
  message : String
  variant : AlertVariant
deriving DecidableEq, Repr

/-- The React state of the `GameBoard` component
(`GameBoard.tsx`, `useState` hooks, lines 23-27). -/
structure GameState where
  currentGuess : String
  guesses : List String
  targetWord : String
  isGameOver : Bool
  isLoading : Bool
deriving DecidableEq, Repr

/-- Initial `useState` values of `GameBoard.tsx`: empty input, no guesses,
default target word `"REACT"`, not over, not loading. -/
def initialGameState : GameState :=
  { currentGuess := ""
    guesses := []
    targetWord := "REACT"
    isGameOver := false
    isLoading := false }

/-- The `gameEnded` flag (`GameBoard.tsx` line 29):
`isGameOver || guesses.length >= 5`. -/
def gameEnded (st : GameState) : Bool :=
  st.isGameOver || decide (5 ≤ st.guesses.length)

/-- The spec's derived Round Status (§3): `Won` when a guess matched the
secret (the code's `isGameOver` flag, set only on a win), `Lost` when the
guess history is full without a win, and `InProgress` otherwise. -/
inductive RoundStatus where
  | InProgress
  | Won
  | Lost
deriving DecidableEq, Repr

/-- Projection of the component state onto the spec's Round Status. -/
def roundStatus (st : GameState) : RoundStatus :=
  if st.isGameOver then RoundStatus.Won
  else if 5 ≤ st.guesses.length then RoundStatus.Lost
  else RoundStatus.InProgress

/-- The `handleSubmitGuess` handler (`GameBoard.tsx` lines 42-60): reject inputs whose
raw length is not 5 (ValidationError alert), then reject when five guesses
are already recorded (StateError alert); otherwise uppercase the input,
append it to the guess history, clear the input, and on a match with the
target word set the game-over flag and send the success alert.  Returns the
updated state and the alert sent, if any. -/
def handleSubmitGuess (st : GameState) : GameState × Option Alert :=
  if st.currentGuess.length ≠ 5 then
    (st, some { title := none, message := "Guess must be 5 letters!", variant := AlertVariant.danger })
  else if 5 ≤ st.guesses.length then
    (st, some { title := none, message := "Game over! You\x27ve used all 5 guesses.", variant := AlertVariant.danger })
  else
    let upperGuess := toUpperStr st.currentGuess
    let appended : GameState :=
      { st with guesses := st.guesses ++ [upperGuess], currentGuess := "" }
    if upperGuess = st.targetWord then
      ({ appended with isGameOver := true },
       some { title := none, message := "Congratulations! You\x27ve won! 🎉", variant := AlertVariant.success })
    else
      (appended, none)

/-- Component state together with the number of in-flight `fetchNewWord`
calls (each `fetchNewWord()` invocation suspends at `await` after setting
the loading flag; its continuation runs when the call resolves). -/
structure ComponentState where
  game : GameState
  pendingFetches : Nat
deriving DecidableEq, Repr

/-- The externally triggered events of the `GameBoard` component: typing in
the input field (`onChange={setCurrentGuess}`), pressing Guess
(`handleSubmitGuess`), pressing Reset (`resetGame`, which also starts a
`fetchNewWord` call), and an in-flight fetch resolving with a word or
failing. -/
inductive GameEvent where
  | setInput (s : String)
  | submit
  | reset
  | fetchSuccess (w : String)
  | fetchFailure (userMessage : String)

/-- One step of the `GameBoard` component (`GameBoard.tsx`).
`reset` is lines 35-40: clear guesses, input and game-over flag, then invoke
`fetchNewWord` (which sets the loading flag and suspends).  A resolving
fetch (lines 85-155) sets the target word — to the uppercased response word
on success, to the fixed fallback `"REACT"` on failure — and clears the
loading flag, with no check that the fetch belongs to the current round. -/
def componentStep (cs : ComponentState) : GameEvent → ComponentState
  | GameEvent.setInput s => { cs with game := { cs.game with currentGuess := s } }
  | GameEvent.submit => { cs with game := (handleSubmitGuess cs.game).1 }
  | GameEvent.reset =>
      { game := { cs.game with guesses := [], currentGuess := "", isGameOver := false, isLoading := true }
        pendingFetches := cs.pendingFetches + 1 }
  | GameEvent.fetchSuccess w =>
      if cs.pendingFetches = 0 then cs
      else
        { game := { cs.game with targetWord := toUpperStr w, isLoading := false }
          pendingFetches := cs.pendingFetches - 1 }
  | GameEvent.fetchFailure _ =>
      if cs.pendingFetches = 0 then cs
      else
        { game := { cs.game with targetWord := "REACT", isLoading := false }
          pendingFetches := cs.pendingFetches - 1 }

/-- State of the component right after mounting: the `useEffect` hook fires
`fetchNewWord()` once, so one fetch is in flight and the loading flag is
set. -/
def initialComponentState : ComponentState :=
  { game := { initialGameState with isLoading := true }
    pendingFetches := 1 }

/-- The states of the `GameBoard` component reachable from the mounted
initial state by any sequence of events. -/
inductive Reachable : ComponentState → Prop
  | init : Reachable initialComponentState
  | step (cs : ComponentState) (e : GameEvent) : Reachable cs → Reachable (componentStep cs e)

/-- The Reset button's clickability (`GameBoard.tsx` lines 173-176): it is
rendered only when the game has ended and is disabled while a fetch is
loading. -/
def resetButtonEnabled (cs : ComponentState) : Bool :=
  gameEnded cs.game && !cs.game.isLoading

/-- The `FALLBACK_WORDS` list of the game-board variant that falls back to a local
word list ("Fallback word list for when API fails"). -/
def FALLBACK_WORDS : List String :=
  ["REACT", "WORLD", "GAMES", "HAPPY", "LEARN", "BUILD", "SHARE", "DREAM",
   "PEACE", "LOVE", "HOPE", "JOY", "FUN", "TEAM", "CODE", "TECH"]

/-- Outcome of one `getRandomWord` call as observed by `fetchNewWord`:
either the promise rejected (network failure, non-2xx status — both are
rethrown by `getRandomWord` with an error message), or it resolved with a
payload whose `word` field may be missing. -/
inductive FetchOutcome where
  | thrown (msg : String)
  | resolved (word : Option String)

/-- A fetch outcome that the code treats as a failure: a thrown error, a
missing `word` field, or an empty `word` string (`if (!word) throw ...`). -/
def isFailureOutcome : FetchOutcome → Bool
  | FetchOutcome.thrown _ => true
  | FetchOutcome.resolved none => true
  | FetchOutcome.resolved (some w) => w == ""

/-- The `error.message` seen by the catch block for a given failed outcome:
the rethrown message, or `"No word received from server"` when the `word`
field was missing or empty. -/
def failureMessage : FetchOutcome → String
  | FetchOutcome.thrown msg => msg
  | FetchOutcome.resolved _ => "No word received from server"

/-- The catch block of the fallback-list variant's `fetchNewWord`: select
`FALLBACK_WORDS[Math.floor(Math.random() * FALLBACK_WORDS.length)]`
(modelled by the index `randIdx`), set it as the target word, and send the
single "Using Offline Mode" warning alert; the loading flag is cleared by
the `finally` block. -/
def fetchFallback (st : GameState) (o : FetchOutcome) (randIdx : Nat) :
    GameState × List Alert :=
  let fb := FALLBACK_WORDS.getD randIdx ""
  ({ st with targetWord := fb, isLoading := false },
   [{ title := some "Using Offline Mode"
      message := "Couldn\x27t fetch a random word from the API (" ++ failureMessage o ++
        "), using \"" ++ fb ++ "\" instead. Check console for details."
      variant := AlertVariant.warning }])

/-- The `fetchNewWord` of the fallback-list game-board variant: on success
set the target word to the uppercased response word; on any failure run the
catch block (`fetchFallback`); `finally` clears the loading flag.  Returns
the updated state and the alerts sent. -/
def fetchNewWordFB (st : GameState) (o : FetchOutcome) (randIdx : Nat) :
    GameState × List Alert :=
  match o with
  | FetchOutcome.resolved (some w) =>
    if w = "" then
      fetchFallback st (FetchOutcome.resolved (some w)) randIdx
    else
      ({ st with targetWord := toUpperStr w, isLoading := false }, [])
  | o => fetchFallback st o randIdx

lemma list_getD_mem {α : Type} (l : List α) (i : Nat) (d : α) (hi : i < l.length) :
    l.getD i d ∈ l := by
  rw [List.getD_eq_getElem?_getD, List.getElem?_eq_getElem hi, Option.getD_some]
  exact List.getElem_mem hi

lemma fetchFallback_spec (st : GameState) (o : FetchOutcome) (i : Nat)
    (hi : i < FALLBACK_WORDS.length) :
    (fetchFallback st o i).1.targetWord ∈ FALLBACK_WORDS ∧
      (fetchFallback st o i).2.length = 1 ∧
      (∀ a ∈ (fetchFallback st o i).2, a.variant = AlertVariant.warning) ∧
      (st.guesses = [] → st.isGameOver = false →
        roundStatus (fetchFallback st o i).1 = RoundStatus.InProgress) := by
  refine ⟨list_getD_mem _ _ _ hi, rfl, ?_, ?_⟩
  · intro a ha
    simp only [fetchFallback, List.mem_singleton] at ha
    rw [ha]
  · intro hg hgo
    simp [roundStatus, fetchFallback, hg, hgo]

/-- C1: for every pair of 5-character strings, `evaluate` — the two-pass
rule of spec §4.2, transcribed in `pass1`/`pass2` — returns exactly 5
letter classifications, and a position is classified `Correct` precisely
when the guessed character equals the secret character at that position
(the pass-1 marking; pass-2 classifications of the remaining positions are
fixed by the availability counts as defined). -/
theorem evaluate_two_pass (g s : String) (hg : g.length = 5) (hs : s.length = 5) :
    (evaluate g s).length = 5 ∧
      List.Forall₂ (fun p c => (c = LetterClass.Correct ↔ p.1 = p.2))
        (g.data.zip s.data) (evaluate g s) := by
  refine ⟨evaluate_length g s hg hs, ?_⟩
  have hgd : g.data.length = 5 := hg
  have hsd : s.data.length = 5 := hs
  have hle : g.data.length ≤ s.data.length := by omega
  have h2 := pass2_pass1_forall (g.data.zip s.data) (fun c => s.data.count c)
      (pass1 (g.data.zip s.data) (fun c => s.data.count c)).2
  rw [List.map_fst_zip g.data s.data hle] at h2
  exact h2

/-- Witness for C1 on the spec's repeated-letter example:
guess "ERASE" against secret "SPEED". -/
theorem evaluate_two_pass_witness :
    (evaluate "ERASE" "SPEED").length = 5 ∧
      evaluate "ERASE" "SPEED" =
        [LetterClass.Present, LetterClass.Absent, LetterClass.Absent,
         LetterClass.Present, LetterClass.Present] :=
  ⟨(evaluate_two_pass "ERASE" "SPEED" (by decide) (by decide)).1, by decide⟩

lemma matchCount_le_count (c : Char) (gs ss : List Char) :
    matchCount c (gs.zip ss) ≤ ss.count c := by
  induction gs generalizing ss with
  | nil => simp [matchCount]
  | cons g gs ih =>
    cases ss with
    | nil => simp [matchCount]
    | cons s ss =>
      simp only [List.zip_eq_zipWith, List.zipWith_cons_cons, matchCount, List.count_cons,
        beq_iff_eq]
      have hih := ih ss
      rw [List.zip_eq_zipWith] at hih
      split_ifs with h1 h2 <;>
        first
          | omega
          | exact absurd h1.2.symm h2
          | exact absurd h1.2 h2

lemma marked_le_count (gs ss : List Char) (hle : gs.length ≤ ss.length) (L : Char) :
    markedCount L (gs.zip (pass2 (gs.zip (pass1 (gs.zip ss) (fun c => ss.count c)).1)
      (pass1 (gs.zip ss) (fun c => ss.count c)).2)) ≤ ss.count L := by
  have hmlen : (pass1 (gs.zip ss) (fun c => ss.count c)).1.length = (gs.zip ss).length :=
    pass1_marks_length _ _
  have hle2 : gs.length ≤ (pass1 (gs.zip ss) (fun c => ss.count c)).1.length := by
    rw [hmlen, List.length_zip]
    omega
  have hP2 := pass2_marked_le (gs.zip (pass1 (gs.zip ss) (fun c => ss.count c)).1)
      (pass1 (gs.zip ss) (fun c => ss.count c)).2 L
  rw [List.map_fst_zip gs _ hle2] at hP2
  have hA := correctMarkCount_pass1 L (gs.zip ss) (fun c => ss.count c)
  rw [List.map_fst_zip gs ss hle] at hA
  rw [hA] at hP2
  have hC := pass1_counts (gs.zip ss) (fun c => ss.count c) L
  rw [hC] at hP2
  have hH := matchCount_le_count L gs ss
  omega

/-- C2: for every 5-character guess and secret and every letter `L`, the
number of positions classified `Correct` or `Present` whose guessed letter
is `L` never exceeds the number of occurrences of `L` in the secret; in
particular when the secret has one occurrence of `L` and the guess two, at
most one guessed occurrence is `Correct`/`Present` and at least one is
`Absent`. -/
theorem evaluate_letter_count_bound (g s : String) (hg : g.length = 5)
    (hs : s.length = 5) (L : Char) :
    markedCount L (g.data.zip (evaluate g s)) ≤ s.data.count L ∧
      (s.data.count L = 1 → g.data.count L = 2 →
        markedCount L (g.data.zip (evaluate g s)) ≤ 1 ∧
        1 ≤ absentCount L (g.data.zip (evaluate g s))) := by
  have hgd : g.data.length = 5 := hg
  have hsd : s.data.length = 5 := hs
  have hle : g.data.length ≤ s.data.length := by omega
  have hmain : markedCount L (g.data.zip (evaluate g s)) ≤ s.data.count L :=
    marked_le_count g.data s.data hle L
  refine ⟨hmain, fun hs1 hg2 => ?_⟩
  have hlen : (evaluate g s).length = 5 := evaluate_length g s hg hs
  have hfst : fstCount L (g.data.zip (evaluate g s)) = g.data.count L :=
    fstCount_zip L g.data (evaluate g s) (by omega)
  have hsum := marked_add_absent L (g.data.zip (evaluate g s))
  constructor
  · omega
  · omega

/-- Witness for C2: guess "ERASE" (two Es) against secret "REACT" (one E). -/
theorem evaluate_letter_count_bound_witness :
    markedCount 'E' ("ERASE".data.zip (evaluate "ERASE" "REACT")) ≤ "REACT".data.count 'E' ∧
      markedCount 'E' ("ERASE".data.zip (evaluate "ERASE" "REACT")) ≤ 1 ∧
      1 ≤ absentCount 'E' ("ERASE".data.zip (evaluate "ERASE" "REACT")) := by
  have h := evaluate_letter_count_bound "ERASE" "REACT" (by decide) (by decide) 'E'
  exact ⟨h.1, h.2 (by decide) (by decide)⟩

/-- C3: in an in-progress round (no win yet, fewer than 5 guesses) with a
5-character input, submitting an input whose uppercase normalization equals
the target word transitions the round to `Won` (terminal: `gameEnded`);
otherwise the round becomes `Lost` exactly when the guess history thereby
reaches 5 entries and stays `InProgress` otherwise; `Won` is reached
exactly when the submitted guess equals the target word. -/
theorem submitGuess_win_loss (st : GameState) (hGO : st.isGameOver = false)
    (hLen : st.guesses.length < 5) (hCur : st.currentGuess.length = 5) :
    (toUpperStr st.currentGuess = st.targetWord →
        roundStatus (handleSubmitGuess st).1 = RoundStatus.Won ∧
          gameEnded (handleSubmitGuess st).1 = true) ∧
      (toUpperStr st.currentGuess ≠ st.targetWord → st.guesses.length + 1 = 5 →
        roundStatus (handleSubmitGuess st).1 = RoundStatus.Lost) ∧
      (toUpperStr st.currentGuess ≠ st.targetWord → st.guesses.length + 1 < 5 →
        roundStatus (handleSubmitGuess st).1 = RoundStatus.InProgress) ∧
      (roundStatus (handleSubmitGuess st).1 = RoundStatus.Won ↔
        toUpperStr st.currentGuess = st.targetWord) := by
  have h1 : ¬(st.currentGuess.length ≠ 5) := by omega
  have h2 : ¬(5 ≤ st.guesses.length) := by omega
  unfold handleSubmitGuess
  rw [if_neg h1, if_neg h2]
  by_cases he : toUpperStr st.currentGuess = st.targetWord
  · rw [if_pos he]
    refine ⟨fun _ => ⟨by simp [roundStatus], by simp [gameEnded]⟩,
      fun hne => absurd he hne, fun hne => absurd he hne, ?_⟩
    simp [roundStatus, he]
  · rw [if_neg he]
    refine ⟨fun habs => absurd habs he, fun _ h5 => ?_, fun _ h5 => ?_, ?_⟩
    · simp only [roundStatus, hGO, List.length_append, List.length_cons, List.length_nil]
      rw [if_neg (by simp), if_pos (by omega)]
    · simp only [roundStatus, hGO, List.length_append, List.length_cons, List.length_nil]
      rw [if_neg (by simp), if_neg (by omega)]
    · simp only [roundStatus, hGO, List.length_append, List.length_cons, List.length_nil]
      rw [if_neg (by simp)]
      constructor
      · intro habs
        split at habs <;> simp_all
      · intro habs
        exact absurd habs he

/-- Witness for C3: a winning submission of "react" against "REACT". -/
theorem submitGuess_win_loss_witness :
    roundStatus (handleSubmitGuess
      { currentGuess := "react", guesses := [], targetWord := "REACT",
        isGameOver := false, isLoading := false }).1 = RoundStatus.Won :=
  ((submitGuess_win_loss _ rfl (by decide) (by decide)).1 (by decide)).1

/-- C4: submitting a raw input whose length is not 5 sends the
ValidationError alert ("Guess must be 5 letters!") and leaves the round
state (guess history, target word, status — the whole state) unchanged. -/
theorem submitGuess_validation_error (st : GameState)
    (h : st.currentGuess.length ≠ 5) :
    (handleSubmitGuess st).1 = st ∧
      (handleSubmitGuess st).2 =
        some { title := none, message := "Guess must be 5 letters!",
               variant := AlertVariant.danger } := by
  unfold handleSubmitGuess
  rw [if_pos h]
  exact ⟨rfl, rfl⟩

/-- Witness for C4 at a 4-character and a 6-character input. -/
theorem submitGuess_validation_error_witness :
    (handleSubmitGuess { currentGuess := "ABCD", guesses := [], targetWord := "REACT", isGameOver := false, isLoading := false }).1 =
      { currentGuess := "ABCD", guesses := [], targetWord := "REACT", isGameOver := false, isLoading := false } ∧
      (handleSubmitGuess { currentGuess := "ABCDEF", guesses := [], targetWord := "REACT", isGameOver := false, isLoading := false }).2 =
        some { title := none, message := "Guess must be 5 letters!", variant := AlertVariant.danger } :=
  ⟨(submitGuess_validation_error _ (by decide)).1,
   (submitGuess_validation_error _ (by decide)).2⟩

/-- C10: when the input length is not 5 and the guess history is already
full, `handleSubmitGuess` sends the ValidationError (length) alert, not the
StateError (game over) alert: the length check runs first. -/
theorem length_check_precedes_game_over (st : GameState)
    (hLen : st.currentGuess.length ≠ 5) (hFull : 5 ≤ st.guesses.length) :
    (handleSubmitGuess st).2 =
        some { title := none, message := "Guess must be 5 letters!",
               variant := AlertVariant.danger } ∧
      (handleSubmitGuess st).2 ≠
        some { title := none, message := "Game over! You\x27ve used all 5 guesses.",
               variant := AlertVariant.danger } := by
  unfold handleSubmitGuess
  rw [if_pos hLen]
  exact ⟨rfl, by simp⟩

/-- C5 (amended): the guess history never exceeds 5 entries in any
reachable component state, and a submission with a 5-character input while
the history is full and the round not won sends the StateError alert
("Game over!") with the state unchanged and the round status `Lost`.
(The claim's original "every submitGuess" is restricted to 5-character
inputs: the length check runs first, see the counterexample.) -/
theorem guess_history_invariant_state_error :
    (∀ cs : ComponentState, Reachable cs → cs.game.guesses.length ≤ 5) ∧
      (∀ st : GameState, st.currentGuess.length = 5 → 5 ≤ st.guesses.length →
        st.isGameOver = false →
          (handleSubmitGuess st).1 = st ∧
            (handleSubmitGuess st).2 =
              some { title := none, message := "Game over! You\x27ve used all 5 guesses.",
                     variant := AlertVariant.danger } ∧
            roundStatus st = RoundStatus.Lost) := by
  constructor
  · intro cs h
    induction h with
    | init => simp [initialComponentState, initialGameState]
    | step cs e hr ih =>
      cases e with
      | setInput s => simpa [componentStep] using ih
      | submit =>
        simp only [componentStep]
        unfold handleSubmitGuess
        by_cases h1 : cs.game.currentGuess.length ≠ 5
        · rw [if_pos h1]
          exact ih
        · rw [if_neg h1]
          by_cases h2 : 5 ≤ cs.game.guesses.length
          · rw [if_pos h2]
            exact ih
          · rw [if_neg h2]
            by_cases h3 : toUpperStr cs.game.currentGuess = cs.game.targetWord
            · rw [if_pos h3]
              simp only [List.length_append, List.length_cons, List.length_nil]
              omega
            · rw [if_neg h3]
              simp only [List.length_append, List.length_cons, List.length_nil]
              omega
      | reset => simp [componentStep]
      | fetchSuccess w =>
        simp only [componentStep]
        by_cases hp : cs.pendingFetches = 0
        · rw [if_pos hp]
          exact ih
        · rw [if_neg hp]
          exact ih
      | fetchFailure m =>
        simp only [componentStep]
        by_cases hp : cs.pendingFetches = 0
        · rw [if_pos hp]
          exact ih
        · rw [if_neg hp]
          exact ih
  · intro st h1 h2 h3
    unfold handleSubmitGuess
    rw [if_neg (by omega), if_pos h2]
    refine ⟨rfl, rfl, ?_⟩
    simp [roundStatus, h3, h2]

/-- Witness for C5: the invariant at the initial state, and the StateError
path at a concrete full-history state. -/
theorem guess_history_invariant_state_error_witness :
    initialComponentState.game.guesses.length ≤ 5 ∧
      roundStatus { currentGuess := "CRANE", guesses := ["AAAAA", "BBBBB", "CCCCC", "DDDDD", "EEEEE"], targetWord := "REACT", isGameOver := false, isLoading := false } = RoundStatus.Lost :=
  ⟨guess_history_invariant_state_error.1 initialComponentState Reachable.init,
   (guess_history_invariant_state_error.2 _ (by decide) (by decide) rfl).2.2⟩

/-- Counterexample for C5 as stated: with a full guess history, no win, and
a 4-character input, `handleSubmitGuess` sends the ValidationError (length)
alert, not the StateError ("game over") alert. -/
theorem submitGuess_full_history_counterexample :
    ¬ ((handleSubmitGuess { currentGuess := "ABCD", guesses := ["AAAAA", "BBBBB", "CCCCC", "DDDDD", "EEEEE"], targetWord := "REACT", isGameOver := false, isLoading := false }).2 =
        some { title := none, message := "Game over! You\x27ve used all 5 guesses.", variant := AlertVariant.danger }) ∧
      (handleSubmitGuess { currentGuess := "ABCD", guesses := ["AAAAA", "BBBBB", "CCCCC", "DDDDD", "EEEEE"], targetWord := "REACT", isGameOver := false, isLoading := false }).2 =
        some { title := none, message := "Guess must be 5 letters!", variant := AlertVariant.danger } := by
  decide

/-- C8: from any component state, Reset empties the guess history, clears
the current input, resets the game-over flag, and invokes the word
provider again (one more fetch becomes pending). -/
theorem resetGame_clears_and_refetches (cs : ComponentState) :
    (componentStep cs GameEvent.reset).game.guesses = [] ∧
      (componentStep cs GameEvent.reset).game.currentGuess = "" ∧
      (componentStep cs GameEvent.reset).game.isGameOver = false ∧
      (componentStep cs GameEvent.reset).pendingFetches = cs.pendingFetches + 1 :=
  ⟨rfl, rfl, rfl, rfl⟩

/-- C9 (amended): the code has no stale-response guard — any in-flight
fetch that resolves sets the target word unconditionally, so a fetch
started before a Reset would overwrite the new round's word when it
resolves last; instead, the UI prevents requesting a Reset while a fetch
is in flight (the Reset button is disabled via the loading flag). -/
theorem no_stale_guard_reset_gated (cs : ComponentState) (w : String)
    (hp : 0 < cs.pendingFetches) :
    (componentStep cs (GameEvent.fetchSuccess w)).game.targetWord = toUpperStr w ∧
      (cs.game.isLoading = true → resetButtonEnabled cs = false) := by
  constructor
  · simp only [componentStep]
    rw [if_neg (by omega)]
  · intro hl
    simp [resetButtonEnabled, hl]

/-- Witness for C9's amended statement at the mounted initial state. -/
theorem no_stale_guard_reset_gated_witness :
    (componentStep initialComponentState (GameEvent.fetchSuccess "WORDS")).game.targetWord =
        toUpperStr "WORDS" ∧
      resetButtonEnabled initialComponentState = false :=
  ⟨(no_stale_guard_reset_gated initialComponentState "WORDS" (by decide)).1,
   (no_stale_guard_reset_gated initialComponentState "WORDS" (by decide)).2 rfl⟩

/-- Counterexample for C9 as stated: with one fetch in flight (round 1),
perform Reset (round 2, second fetch starts), let the round-2 fetch resolve
with "WORDS", then let the superseded round-1 fetch resolve with "STALE":
the stale response is not discarded and overwrites the new round's target
word. -/
theorem stale_fetch_overwrites_counterexample :
    (componentStep (componentStep (componentStep
          { game := { currentGuess := "", guesses := [], targetWord := "REACT", isGameOver := false, isLoading := true }, pendingFetches := 1 }
          GameEvent.reset)
        (GameEvent.fetchSuccess "WORDS"))
      (GameEvent.fetchSuccess "STALE")).game.targetWord = "STALE" ∧
      ("STALE" : String) ≠ "WORDS" := by
  decide

/-- C6 is violated by the code: the fallback word list contains words that
are not 5 letters long ("JOY" among others), and a failed fetch with random
index 11 installs the 3-letter word "JOY" as the target word of a round in
which guessing is enabled. -/
theorem fallback_word_malformed :
    "JOY" ∈ FALLBACK_WORDS ∧
      (fetchNewWordFB initialGameState (FetchOutcome.thrown "Failed to fetch") 11).1.targetWord = "JOY" ∧
      ("JOY" : String).length = 3 := by
  decide

/-- C7: whenever the fetch outcome is a failure (thrown error, missing or
empty `word` field), the fallback-list `fetchNewWord` still produces a
state whose target word is drawn from `FALLBACK_WORDS`, emits exactly one
alert, every emitted alert is a warning, and — at a round start (empty
history, no win) — the round status is `InProgress`. -/
theorem fetch_failure_uses_fallback (st : GameState) (o : FetchOutcome) (i : Nat)
    (ho : isFailureOutcome o = true) (hi : i < FALLBACK_WORDS.length) :
    (fetchNewWordFB st o i).1.targetWord ∈ FALLBACK_WORDS ∧
      (fetchNewWordFB st o i).2.length = 1 ∧
      (∀ a ∈ (fetchNewWordFB st o i).2, a.variant = AlertVariant.warning) ∧
      (st.guesses = [] → st.isGameOver = false →
        roundStatus (fetchNewWordFB st o i).1 = RoundStatus.InProgress) := by
  cases o with
  | thrown msg => exact fetchFallback_spec st _ i hi
  | resolved w =>
    cases w with
    | none => exact fetchFallback_spec st _ i hi
    | some ws =>
      have hws : ws = "" := by
        have := ho
        simp only [isFailureOutcome, beq_iff_eq] at this
        exact this
      simp only [fetchNewWordFB, if_pos hws]
      exact fetchFallback_spec st _ i hi

/-- Witness for C7: a thrown network error with random index 0 at a fresh
round. -/
theorem fetch_failure_uses_fallback_witness :
    (fetchNewWordFB { currentGuess := "", guesses := [], targetWord := "", isGameOver := false, isLoading := true } (FetchOutcome.thrown "Failed to fetch") 0).1.targetWord ∈ FALLBACK_WORDS ∧
      (fetchNewWordFB { currentGuess := "", guesses := [], targetWord := "", isGameOver := false, isLoading := true } (FetchOutcome.thrown "Failed to fetch") 0).2.length = 1 ∧
      roundStatus (fetchNewWordFB { currentGuess := "", guesses := [], targetWord := "", isGameOver := false, isLoading := true } (FetchOutcome.thrown "Failed to fetch") 0).1 = RoundStatus.InProgress := by
  have h := fetch_failure_uses_fallback
    { currentGuess := "", guesses := [], targetWord := "", isGameOver := false, isLoading := true }
    (FetchOutcome.thrown "Failed to fetch") 0 (by decide) (by decide)
  exact ⟨h.1, h.2.1, h.2.2.2 rfl rfl⟩

/-- Witness for C10: a 3-character input with five recorded guesses. -/
theorem length_check_precedes_game_over_witness :
    (handleSubmitGuess { currentGuess := "CAT", guesses := ["AAAAA", "BBBBB", "CCCCC", "DDDDD", "FFFFF"], targetWord := "REACT", isGameOver := false, isLoading := false }).2 =
      some { title := none, message := "Guess must be 5 letters!", variant := AlertVariant.danger } :=
  (length_check_precedes_game_over _ (by decide) (by decide)).1

end Wordle
